import Mathlib

/-!
Shallow embedding of `src/lib/GaugeComponent/hooks/throttle.ts`.

The source builds a throttled wrapper around a function `func` with a
minimum interval `wait`.  The closure holds three mutable variables:
`timeoutId` (handle returned by `setTimeout`, or `null`),
`lastArgs` (arguments stored for the deferred trailing call, or `null`) and
`lastCallTime` (time of the most recent actual invocation, initially `0`).

We model the closure state together with the host environment's set of
active timers.  A timer record carries its id, its deadline
(`now + remaining` at scheduling time) and, as ghost data used only in
statements, the arguments of the wrapper call that scheduled it.
`setTimeout` appends a fresh record; `clearTimeout id` removes the record
with that id.  The timer's callback itself reads the closure variable
`lastArgs`, never the ghost field, exactly as the source callback does.

Times are integers (`Date.now()` values); the clock may move arbitrarily
between events, which the source explicitly guards against with the
`remaining > wait` test.
-/

namespace Throttle

variable {α : Type}

/-- The closure variables of the throttled wrapper, plus the environment's
list of active timers (id, deadline, ghost scheduling arguments) and a
fresh-id counter for `setTimeout`. -/
structure ThrottleState (α : Type) where
  timeoutId : Option Nat
  lastArgs : Option α
  lastCallTime : Int
  timers : List (Nat × Int × α)
  nextId : Nat
deriving DecidableEq

/-- State at construction of the wrapper: no timer, no stored arguments,
`lastCallTime = 0`. -/
def initialState : ThrottleState α :=
  { timeoutId := none, lastArgs := none, lastCallTime := 0, timers := [], nextId := 1 }

/-- `clearTimeout`: the environment removes the timer with the given id. -/
def clearActive (id : Nat) (ts : List (Nat × Int × α)) : List (Nat × Int × α) :=
  ts.filter (fun t => t.1 ≠ id)

/-- `remaining = wait - (now - lastCallTime)` as computed by the wrapper. -/
def remainingOf (wait now : Int) (s : ThrottleState α) : Int :=
  wait - (now - s.lastCallTime)

/-- The test of the source's leading-edge branch:
`remaining <= 0 || remaining > wait`. -/
abbrev leadingCond (wait now : Int) (s : ThrottleState α) : Prop :=
  remainingOf wait now s ≤ 0 ∨ wait < remainingOf wait now s

/-- The effect of `if (timeoutId) { clearTimeout(timeoutId); }` on the
environment's timer list. -/
def clearPending (s : ThrottleState α) : List (Nat × Int × α) :=
  match s.timeoutId with
  | some id => clearActive id s.timers
  | none => s.timers

/-- One call of the throttled wrapper (`throttled(...args)` at clock value
`now`).  Returns the new state and `some args` when `func` was invoked
synchronously with `args`, `none` otherwise. -/
def callStep (wait now : Int) (args : α) (s : ThrottleState α) :
    ThrottleState α × Option α :=
  if leadingCond wait now s then
    ({ s with timeoutId := none, timers := clearPending s, lastCallTime := now }, some args)
  else if s.timeoutId.isNone then
    ({ s with lastArgs := some args,
              timeoutId := some s.nextId,
              timers := (s.nextId, now + remainingOf wait now s, args) :: s.timers,
              nextId := s.nextId + 1 }, none)
  else
    (s, none)

/-- The environment fires the pending timer (if any) at clock value `now`,
running the callback passed to `setTimeout`: it sets `lastCallTime` to the
firing time, nulls `timeoutId`, and if `lastArgs` is present invokes `func`
with it and clears it.  Firing removes the timer from the active list. -/
def fireStep (now : Int) (s : ThrottleState α) : ThrottleState α × Option α :=
  match s.timers with
  | [] => (s, none)
  | _ :: rest =>
    match s.lastArgs with
    | some la =>
        ({ s with timers := rest, lastCallTime := now, timeoutId := none,
                  lastArgs := none }, some la)
    | none =>
        ({ s with timers := rest, lastCallTime := now, timeoutId := none }, none)

/-- `throttled.cancel()`: clear the timer if one is pending, null the
stored arguments, reset `lastCallTime` to `0`. -/
def cancelStep (s : ThrottleState α) : ThrottleState α :=
  { s with timeoutId := none, timers := clearPending s, lastArgs := none, lastCallTime := 0 }

/-- The three kinds of events that can reach the throttle: a wrapper call,
the firing of the scheduled timer, and `cancel()`.  Each carries the clock
value at which it occurs (`cancel` does not read the clock; its time is
kept only to order traces). -/
inductive Event (α : Type) where
  | call (now : Int) (args : α)
  | fire (now : Int)
  | cancel (now : Int)
deriving DecidableEq

/-- Clock value at which an event occurs. -/
def Event.time : Event α → Int
  | .call now _ => now
  | .fire now => now
  | .cancel now => now

/-- Whether an event is a timer firing. -/
def Event.isFire : Event α → Bool
  | .fire _ => true
  | _ => false

/-- One step of the throttle: dispatch an event to the corresponding
operation.  `cancel` never invokes `func`. -/
def step (wait : Int) (s : ThrottleState α) : Event α → ThrottleState α × Option α
  | .call now args => callStep wait now args s
  | .fire now => fireStep now s
  | .cancel _ => (cancelStep s, none)

/-- Run a trace of events.  Returns the final state and the list of actual
invocations of `func`, each recorded as (time of the event, arguments). -/
def run (wait : Int) (s : ThrottleState α) : List (Event α) → ThrottleState α × List (Int × α)
  | [] => (s, [])
  | ev :: evs =>
    match step wait s ev with
    | (s1, some a) =>
        let r := run wait s1 evs
        (r.1, (ev.time, a) :: r.2)
    | (s1, none) => run wait s1 evs

/-- A state is reachable when some trace of events leads to it from the
construction state. -/
def Reachable (wait : Int) (s : ThrottleState α) : Prop :=
  ∃ evs : List (Event α), (run wait initialState evs).1 = s

/-- The inductive invariant of the throttle state: when a timer handle is
held, the environment has exactly that one timer and `lastArgs` holds the
arguments the timer was scheduled with; when no handle is held, the
environment has no timer at all. -/
def Inv (s : ThrottleState α) : Prop :=
  (∀ id, s.timeoutId = some id →
      ∃ d a, s.timers = [(id, d, a)] ∧ s.lastArgs = some a) ∧
  (s.timeoutId = none → s.timers = [])

/-! ### Basic lemmas about the step functions -/

theorem run_cons (wait : Int) (s : ThrottleState α) (ev : Event α) (evs : List (Event α)) :
    run wait s (ev :: evs) =
      ((run wait (step wait s ev).1 evs).1,
        (match (step wait s ev).2 with
          | some a => [(ev.time, a)]
          | none => []) ++ (run wait (step wait s ev).1 evs).2) := by
  rcases hstep : step wait s ev with ⟨s1, o⟩
  cases o <;> simp [run, hstep]

theorem run_append (wait : Int) (s : ThrottleState α) (l1 l2 : List (Event α)) :
    run wait s (l1 ++ l2) =
      ((run wait (run wait s l1).1 l2).1,
        (run wait s l1).2 ++ (run wait (run wait s l1).1 l2).2) := by
  induction l1 generalizing s with
  | nil => simp [run]
  | cons ev l1 ih => simp [run_cons, ih]

/-! ### The inductive invariant -/

theorem inv_initial : Inv (initialState : ThrottleState α) := by
  constructor
  · intro id h
    simp [initialState] at h
  · intro _
    rfl

theorem clearPending_eq_nil (s : ThrottleState α) (hs : Inv s) : clearPending s = [] := by
  obtain ⟨h1, h2⟩ := hs
  unfold clearPending
  cases htid : s.timeoutId with
  | none => exact h2 htid
  | some id =>
    obtain ⟨d, a, hts, _⟩ := h1 id htid
    simp [hts, clearActive]

theorem inv_callStep (wait now : Int) (args : α) (s : ThrottleState α) (hs : Inv s) :
    Inv (callStep wait now args s).1 := by
  unfold callStep
  split
  · exact ⟨fun id h => by simp at h, fun _ => clearPending_eq_nil s hs⟩
  · split
    · rename_i htid
      refine ⟨fun id h => ?_, fun h => by simp at h⟩
      simp at h htid
      subst h
      exact ⟨now + remainingOf wait now s, args, by simp [hs.2 htid], rfl⟩
    · exact hs

theorem inv_fireStep (now : Int) (s : ThrottleState α) (hs : Inv s) :
    Inv (fireStep now s).1 := by
  obtain ⟨h1, h2⟩ := hs
  unfold fireStep
  cases hts : s.timers with
  | nil => exact ⟨h1, h2⟩
  | cons p rest =>
    have hrest : rest = [] := by
      cases htid : s.timeoutId with
      | none => simp [h2 htid] at hts
      | some id =>
        obtain ⟨d, a, hts', _⟩ := h1 id htid
        rw [hts'] at hts
        exact (List.cons.injEq _ _ _ _ ▸ hts).2.symm
    cases s.lastArgs <;>
      exact ⟨fun id h => by simp at h, fun _ => by simp [hrest]⟩

theorem inv_cancelStep (s : ThrottleState α) (hs : Inv s) : Inv (cancelStep s) := by
  exact ⟨fun id h => by simp [cancelStep] at h,
         fun _ => by simp [cancelStep, clearPending_eq_nil s hs]⟩

theorem inv_step (wait : Int) (s : ThrottleState α) (ev : Event α) (hs : Inv s) :
    Inv (step wait s ev).1 := by
  cases ev with
  | call now args => exact inv_callStep wait now args s hs
  | fire now => exact inv_fireStep now s hs
  | cancel now => exact inv_cancelStep s hs

theorem inv_run (wait : Int) (s : ThrottleState α) (evs : List (Event α)) (hs : Inv s) :
    Inv (run wait s evs).1 := by
  induction evs generalizing s with
  | nil => exact hs
  | cons ev evs ih =>
    rw [run_cons]
    exact ih _ (inv_step wait s ev hs)

theorem reachable_inv (wait : Int) (s : ThrottleState α) (hs : Reachable wait s) : Inv s := by
  obtain ⟨evs, hevs⟩ := hs
  exact hevs ▸ inv_run wait initialState evs inv_initial

theorem inv_timers_length (s : ThrottleState α) (hs : Inv s) : s.timers.length ≤ 1 := by
  obtain ⟨h1, h2⟩ := hs
  cases htid : s.timeoutId with
  | none => simp [h2 htid]
  | some id =>
    obtain ⟨d, a, hts, _⟩ := h1 id htid
    simp [hts]

/-! ### Behaviour of traces restricted to particular event shapes -/

theorem run_window_calls (wait t0 : Int) (s : ThrottleState α) (calls : List (Int × α))
    (hlct : s.lastCallTime = t0)
    (hwin : ∀ p ∈ calls, t0 < p.1 ∧ p.1 < t0 + wait) :
    (run wait s (calls.map (fun p => Event.call p.1 p.2))).2 = [] ∧
    (run wait s (calls.map (fun p => Event.call p.1 p.2))).1.lastCallTime = t0 := by
  induction calls generalizing s with
  | nil => exact ⟨rfl, hlct⟩
  | cons p calls ih =>
    obtain ⟨hp1, hp2⟩ := hwin p (List.mem_cons_self p calls)
    have hnl : ¬ leadingCond wait p.1 s := by
      simp only [leadingCond, remainingOf, hlct]
      omega
    have hstep : (step wait s (Event.call p.1 p.2)).2 = none ∧
        (step wait s (Event.call p.1 p.2)).1.lastCallTime = t0 := by
      simp only [step, callStep, if_neg hnl]
      by_cases htid : s.timeoutId.isNone <;> simp [htid, hlct]
    obtain ⟨ih1, ih2⟩ := ih (step wait s (Event.call p.1 p.2)).1 hstep.2
      (fun q hq => hwin q (List.mem_cons_of_mem p hq))
    refine ⟨?_, ?_⟩
    · rw [List.map_cons, run_cons, hstep.1]
      simpa using ih1
    · rw [List.map_cons, run_cons]
      simpa using ih2

theorem run_fires_nil_timers (wait : Int) (s : ThrottleState α) (evs : List (Event α))
    (hts : s.timers = []) (hf : ∀ e ∈ evs, e.isFire = true) :
    run wait s evs = (s, []) := by
  induction evs with
  | nil => rfl
  | cons e evs ih =>
    have he : e.isFire = true := hf e (List.mem_cons_self e evs)
    cases e with
    | call n a => simp [Event.isFire] at he
    | cancel n => simp [Event.isFire] at he
    | fire n =>
      have hstep : step wait s (Event.fire n) = (s, none) := by
        simp [step, fireStep, hts]
      rw [run_cons, hstep]
      simp [ih (fun e he' => hf e (List.mem_cons_of_mem _ he'))]

theorem run_wait_zero (s : ThrottleState α) (evs : List (Event α))
    (hts : s.timers = []) (htid : s.timeoutId = none) :
    (run 0 s evs).1.timers = [] ∧ (run 0 s evs).1.timeoutId = none ∧
    (run 0 s evs).2 = evs.filterMap (fun e => match e with
      | Event.call now args => some (now, args)
      | _ => none) := by
  induction evs generalizing s with
  | nil => exact ⟨hts, htid, rfl⟩
  | cons e evs ih =>
    cases e with
    | call n a =>
      have hl : leadingCond 0 n s := by
        simp only [leadingCond, remainingOf]
        omega
      have hstep : step 0 s (Event.call n a) =
          ({ s with timeoutId := none, timers := clearPending s, lastCallTime := n },
            some a) := by
        simp [step, callStep, hl]
      obtain ⟨ih1, ih2, ih3⟩ := ih
        { s with timeoutId := none, timers := clearPending s, lastCallTime := n }
        (by simp [clearPending, htid, hts]) rfl
      rw [run_cons, hstep]
      exact ⟨ih1, ih2, by simp [ih3, Event.time]⟩
    | fire n =>
      have hstep : step 0 s (Event.fire n) = (s, none) := by
        simp [step, fireStep, hts]
      obtain ⟨ih1, ih2, ih3⟩ := ih s hts htid
      rw [run_cons, hstep]
      exact ⟨ih1, ih2, by simp [ih3]⟩
    | cancel n =>
      have hstep : step 0 s (Event.cancel n) = (cancelStep s, none) := rfl
      obtain ⟨ih1, ih2, ih3⟩ := ih (cancelStep s)
        (by simp [cancelStep, clearPending, htid, hts]) rfl
      rw [run_cons, hstep]
      exact ⟨ih1, ih2, by simp [ih3]⟩

theorem run_invocation_times_sublist (wait : Int) (s : ThrottleState α)
    (evs : List (Event α)) :
    ((run wait s evs).2.map Prod.fst).Sublist (evs.map Event.time) := by
  induction evs generalizing s with
  | nil => simp [run]
  | cons ev evs ih =>
    rw [run_cons]
    rcases h : (step wait s ev).2 with _ | a
    · simpa using List.Sublist.cons ev.time (ih (step wait s ev).1)
    · simpa using List.Sublist.cons₂ ev.time (ih (step wait s ev).1)

/-! ### Claim theorems -/

/-- C1 fails as stated: after the trace call(200,1); call(230,2); call(350,3)
with `wait = 100`, the third call takes the leading-edge branch while the
timer scheduled by the second call is pending.  It cancels the timer
(`timeoutId = none`) but does NOT clear the stored pending arguments
(`lastArgs = some 2`), so the claimed iff-invariant is violated. -/
theorem C1_counterexample :
    ((run 100 (initialState : ThrottleState Nat)
        [Event.call 200 1, Event.call 230 2, Event.call 350 3]).1.timeoutId.isSome ≠
      (run 100 (initialState : ThrottleState Nat)
        [Event.call 200 1, Event.call 230 2, Event.call 350 3]).1.lastArgs.isSome) ∧
    (run 100 (initialState : ThrottleState Nat)
        [Event.call 200 1, Event.call 230 2, Event.call 350 3]).1.timeoutId = none ∧
    (run 100 (initialState : ThrottleState Nat)
        [Event.call 200 1, Event.call 230 2, Event.call 350 3]).1.lastArgs = some 2 := by
  decide

/-- C1 (amended): in every reachable state, if the pending timer handle is
set then the stored pending arguments are set (one direction of the claimed
iff).  When the leading-edge branch is taken — in particular while a
deferred timer is pending — it cancels that timer (handle cleared, no
active timer left) and fires synchronously, but it leaves the stored
pending arguments unchanged rather than clearing them. -/
theorem C1_pending_invariant (wait now : Int) (args : α) (s : ThrottleState α)
    (hs : Reachable wait s) (hl : leadingCond wait now s) :
    (s.timeoutId.isSome = true → s.lastArgs.isSome = true) ∧
    (callStep wait now args s).1.timeoutId = none ∧
    (callStep wait now args s).1.timers = [] ∧
    (callStep wait now args s).1.lastArgs = s.lastArgs ∧
    (callStep wait now args s).2 = some args := by
  have hinv := reachable_inv wait s hs
  refine ⟨?_, ?_, ?_, ?_, ?_⟩
  · intro h
    cases htid : s.timeoutId with
    | none => rw [htid] at h; simp at h
    | some id =>
      obtain ⟨d, a, _, hla⟩ := hinv.1 id htid
      simp [hla]
  · simp [callStep, hl]
  · simp [callStep, hl, clearPending_eq_nil s hinv]
  · simp [callStep, hl]
  · simp [callStep, hl]

/-- Witness for C1: the state reached by call(200,1); call(230,2) with
`wait = 100` has a pending timer, and the call at `now = 350` takes the
leading-edge branch there. -/
theorem C1_witness :
    (Reachable 100 ((run 100 (initialState : ThrottleState Nat)
        [Event.call 200 1, Event.call 230 2]).1) ∧
      leadingCond 100 350 ((run 100 (initialState : ThrottleState Nat)
        [Event.call 200 1, Event.call 230 2]).1)) ∧
    (((run 100 (initialState : ThrottleState Nat)
        [Event.call 200 1, Event.call 230 2]).1.timeoutId.isSome = true →
      (run 100 (initialState : ThrottleState Nat)
        [Event.call 200 1, Event.call 230 2]).1.lastArgs.isSome = true) ∧
     (callStep 100 350 3 ((run 100 (initialState : ThrottleState Nat)
        [Event.call 200 1, Event.call 230 2]).1)).1.timeoutId = none ∧
     (callStep 100 350 3 ((run 100 (initialState : ThrottleState Nat)
        [Event.call 200 1, Event.call 230 2]).1)).1.timers = [] ∧
     (callStep 100 350 3 ((run 100 (initialState : ThrottleState Nat)
        [Event.call 200 1, Event.call 230 2]).1)).1.lastArgs =
      (run 100 (initialState : ThrottleState Nat)
        [Event.call 200 1, Event.call 230 2]).1.lastArgs ∧
     (callStep 100 350 3 ((run 100 (initialState : ThrottleState Nat)
        [Event.call 200 1, Event.call 230 2]).1)).2 = some 3) :=
  ⟨⟨⟨[Event.call 200 1, Event.call 230 2], rfl⟩, by decide⟩,
    C1_pending_invariant 100 350 3 _
      ⟨[Event.call 200 1, Event.call 230 2], rfl⟩ (by decide)⟩

/-- C2 fails as stated: on a fresh wrapper (`lastCallTime = 0`) with
`wait = 100`, a call at clock value `now = 50` computes
`remaining = 100 - 50 = 50`, which is neither `≤ 0` nor `> wait`, so the
deferred branch is taken and the underlying function is NOT invoked
synchronously. -/
theorem C2_counterexample :
    (initialState : ThrottleState Nat).lastCallTime = 0 ∧
    (callStep 100 50 (7 : Nat) initialState).2 = none := by
  decide

/-- C2 (amended): when `lastCallTime = 0` and `wait ≥ 0`, the call takes
the leading-edge branch — invoking the underlying function exactly once,
synchronously, with exactly that call's arguments — precisely when
`now < 0` or `now ≥ wait` (which covers every realistic clock value);
when `0 ≤ now < wait` the call is deferred or suppressed instead and no
synchronous invocation happens. -/
theorem C2_fresh_call (wait now : Int) (args : α) (s : ThrottleState α)
    (h0 : s.lastCallTime = 0) (hw : 0 ≤ wait) :
    ((now < 0 ∨ wait ≤ now) → (callStep wait now args s).2 = some args) ∧
    (0 ≤ now → now < wait → (callStep wait now args s).2 = none) := by
  constructor
  · intro h
    have hl : leadingCond wait now s := by
      simp only [leadingCond, remainingOf, h0]
      omega
    simp [callStep, hl]
  · intro h1 h2
    have hl : ¬ leadingCond wait now s := by
      simp only [leadingCond, remainingOf, h0]
      omega
    by_cases htid : s.timeoutId.isNone <;> simp [callStep, hl, htid]

/-- Witness for C2: a fresh wrapper called at `now = 200 ≥ wait = 100`
fires synchronously with its arguments. -/
theorem C2_witness :
    ((initialState : ThrottleState Nat).lastCallTime = 0 ∧ (0 : Int) ≤ 100) ∧
    ((((200 : Int) < 0 ∨ (100 : Int) ≤ 200) →
        (callStep 100 200 (7 : Nat) initialState).2 = some 7) ∧
      ((0 : Int) ≤ 200 → (200 : Int) < 100 →
        (callStep 100 200 (7 : Nat) initialState).2 = none)) :=
  ⟨⟨rfl, by decide⟩, C2_fresh_call 100 200 7 initialState rfl (by decide)⟩

/-- C3: after a leading-edge firing at `t0` (so `lastCallTime = t0`) with
no timer pending, a call at `t0 + d` with `0 < d < wait` does not invoke
synchronously; it stores the call's arguments and schedules a one-shot
timer with deadline `(t0 + d) + (wait - d) = t0 + wait`, and when that
timer fires the underlying function is invoked with exactly the arguments
of the scheduling call. -/
theorem C3_deferred_schedule (wait t0 d fnow : Int) (args : α) (s : ThrottleState α)
    (hlct : s.lastCallTime = t0) (htid : s.timeoutId = none)
    (hd0 : 0 < d) (hdw : d < wait) :
    (callStep wait (t0 + d) args s).2 = none ∧
    (callStep wait (t0 + d) args s).1.timeoutId = some s.nextId ∧
    (callStep wait (t0 + d) args s).1.timers = (s.nextId, t0 + wait, args) :: s.timers ∧
    (callStep wait (t0 + d) args s).1.lastArgs = some args ∧
    (fireStep fnow (callStep wait (t0 + d) args s).1).2 = some args := by
  have hnl : ¬ leadingCond wait (t0 + d) s := by
    simp only [leadingCond, remainingOf, hlct]
    omega
  have htid' : s.timeoutId.isNone = true := by simp [htid]
  have hdl : t0 + d + remainingOf wait (t0 + d) s = t0 + wait := by
    simp only [remainingOf, hlct]
    omega
  refine ⟨?_, ?_, ?_, ?_, ?_⟩
  · simp [callStep, hnl, htid']
  · simp [callStep, hnl, htid']
  · simp [callStep, hnl, htid', hdl]
  · simp [callStep, hnl, htid']
  · simp [callStep, fireStep, hnl, htid']

/-- Witness for C3: from the reachable state after call(200,1) with
`wait = 100`, a call at `230 = 200 + 30` schedules a timer with deadline
`300 = 200 + 100`, and firing it invokes with the scheduled arguments. -/
theorem C3_witness :
    ((run 100 (initialState : ThrottleState Nat) [Event.call 200 1]).1.lastCallTime = 200 ∧
      (run 100 (initialState : ThrottleState Nat) [Event.call 200 1]).1.timeoutId = none ∧
      (0 : Int) < 30 ∧ (30 : Int) < 100) ∧
    ((callStep 100 (200 + 30) 2
        ((run 100 (initialState : ThrottleState Nat) [Event.call 200 1]).1)).2 = none ∧
     (callStep 100 (200 + 30) 2
        ((run 100 (initialState : ThrottleState Nat) [Event.call 200 1]).1)).1.timeoutId =
      some (run 100 (initialState : ThrottleState Nat) [Event.call 200 1]).1.nextId ∧
     (callStep 100 (200 + 30) 2
        ((run 100 (initialState : ThrottleState Nat) [Event.call 200 1]).1)).1.timers =
      ((run 100 (initialState : ThrottleState Nat) [Event.call 200 1]).1.nextId, 200 + 100, 2) ::
        (run 100 (initialState : ThrottleState Nat) [Event.call 200 1]).1.timers ∧
     (callStep 100 (200 + 30) 2
        ((run 100 (initialState : ThrottleState Nat) [Event.call 200 1]).1)).1.lastArgs =
      some 2 ∧
     (fireStep 300 (callStep 100 (200 + 30) 2
        ((run 100 (initialState : ThrottleState Nat) [Event.call 200 1]).1)).1).2 = some 2) :=
  ⟨⟨rfl, rfl, by decide, by decide⟩,
    C3_deferred_schedule 100 200 30 300 2 _ rfl rfl (by decide) (by decide)⟩

/-- C4 fails as stated: in the reachable state after call(200,1);
call(230,2) with `wait = 100` a timer is pending, and a call at clock
value `now = 150` (the clock jumped backward) computes
`remaining = 100 - (150 - 200) = 150 > 0`, yet it is not a no-op: the
`remaining > wait` guard routes it to the leading-edge branch, which
invokes the function and changes the state. -/
theorem C4_counterexample :
    (0 : Int) < remainingOf 100 150 ((run 100 (initialState : ThrottleState Nat)
        [Event.call 200 1, Event.call 230 2]).1) ∧
    (run 100 (initialState : ThrottleState Nat)
        [Event.call 200 1, Event.call 230 2]).1.timeoutId.isSome = true ∧
    (callStep 100 150 (3 : Nat) ((run 100 (initialState : ThrottleState Nat)
        [Event.call 200 1, Event.call 230 2]).1)).2 = some 3 ∧
    (callStep 100 150 (3 : Nat) ((run 100 (initialState : ThrottleState Nat)
        [Event.call 200 1, Event.call 230 2]).1)).1 ≠
      (run 100 (initialState : ThrottleState Nat)
        [Event.call 200 1, Event.call 230 2]).1 := by
  decide

/-- C4 (amended): a call that arrives while `0 < remaining ≤ wait` and a
timer is already pending is a complete no-op: the underlying function is
not invoked and the entire state (lastCallTime, stored pending arguments,
timer handle, active timers, id counter) is returned unchanged — in
particular the stored pending arguments are not updated to the newer
call's arguments.  (The case `remaining > wait`, possible only when the
clock runs backward, instead takes the leading-edge branch.) -/
theorem C4_suppressed_noop (wait now : Int) (args : α) (s : ThrottleState α) (id : Nat)
    (h1 : 0 < remainingOf wait now s) (h2 : remainingOf wait now s ≤ wait)
    (h3 : s.timeoutId = some id) :
    callStep wait now args s = (s, none) := by
  have hnl : ¬ leadingCond wait now s := by
    simp only [leadingCond]
    omega
  simp [callStep, hnl, h3]

/-- Witness for C4: in the pending state after call(200,1); call(230,2)
with `wait = 100`, the call at `now = 240` (`remaining = 60`) is dropped
with no state change. -/
theorem C4_witness :
    ((0 : Int) < remainingOf 100 240 ((run 100 (initialState : ThrottleState Nat)
        [Event.call 200 1, Event.call 230 2]).1) ∧
      remainingOf 100 240 ((run 100 (initialState : ThrottleState Nat)
        [Event.call 200 1, Event.call 230 2]).1) ≤ 100 ∧
      (run 100 (initialState : ThrottleState Nat)
        [Event.call 200 1, Event.call 230 2]).1.timeoutId = some 1) ∧
    callStep 100 240 (3 : Nat) ((run 100 (initialState : ThrottleState Nat)
        [Event.call 200 1, Event.call 230 2]).1) =
      ((run 100 (initialState : ThrottleState Nat)
        [Event.call 200 1, Event.call 230 2]).1, none) :=
  ⟨⟨by decide, by decide, by decide⟩,
    C4_suppressed_noop 100 240 3 _ 1 (by decide) (by decide) (by decide)⟩

/-- C5: in every reachable state the environment holds at most one active
timer, so at most one scheduled future invocation exists at any time; and
for a burst beginning with a leading-edge call at `t0` followed by any
number of calls strictly inside the window `(t0, t0 + wait)` and the
firing of the scheduled timer, the underlying function is invoked at most
twice in total (once at the leading edge, at most once trailing). -/
theorem C5_single_timer_coalescing (wait : Int) (evs : List (Event α))
    (s0 : ThrottleState α) (t0 : Int) (a0 : α) (calls : List (Int × α)) (tf : Int)
    (hwin : ∀ p ∈ calls, t0 < p.1 ∧ p.1 < t0 + wait)
    (hlead : leadingCond wait t0 s0) :
    (run wait initialState evs).1.timers.length ≤ 1 ∧
    (run wait s0 (Event.call t0 a0 ::
      (calls.map (fun p => Event.call p.1 p.2) ++ [Event.fire tf]))).2.length ≤ 2 := by
  constructor
  · exact inv_timers_length _ (inv_run wait initialState evs inv_initial)
  · have hout : (step wait s0 (Event.call t0 a0)).2 = some a0 := by
      simp [step, callStep, hlead]
    have hlct : (step wait s0 (Event.call t0 a0)).1.lastCallTime = t0 := by
      simp [step, callStep, hlead]
    obtain ⟨hwin0, _⟩ :=
      run_window_calls wait t0 (step wait s0 (Event.call t0 a0)).1 calls hlct hwin
    have hfire : ∀ s' : ThrottleState α, (run wait s' [Event.fire tf]).2.length ≤ 1 := by
      intro s'
      rw [run_cons]
      rcases h : (step wait s' (Event.fire tf)).2 <;> simp [run, h]
    rw [run_cons, hout, run_append, hwin0]
    simpa using hfire (run wait (step wait s0 (Event.call t0 a0)).1
      (calls.map (fun p => Event.call p.1 p.2))).1

/-- Witness for C5: `wait = 100`, leading call at `t0 = 200` from the
fresh state, window calls at 230 and 260, timer fired at 300: exactly two
invocations occur, and a reachable state holds at most one timer. -/
theorem C5_witness :
    ((∀ p ∈ [((230 : Int), (2 : Nat)), (260, 3)], (200 : Int) < p.1 ∧ p.1 < 200 + 100) ∧
      leadingCond 100 200 (initialState : ThrottleState Nat)) ∧
    ((run 100 (initialState : ThrottleState Nat)
        [Event.call 200 1, Event.call 230 2]).1.timers.length ≤ 1 ∧
      (run 100 (initialState : ThrottleState Nat) (Event.call 200 1 ::
        ([((230 : Int), (2 : Nat)), (260, 3)].map (fun p => Event.call p.1 p.2) ++
          [Event.fire 300]))).2.length ≤ 2) :=
  ⟨⟨by decide, by decide⟩,
    C5_single_timer_coalescing 100 [Event.call 200 1, Event.call 230 2]
      initialState 200 1 [(230, 2), (260, 3)] 300 (by decide) (by decide)⟩

/-- C6: if a deferred call is pending (timer handle set) in a reachable
state and `cancel()` runs before the timer fires, then no active timer and
no stored arguments remain, and any number of subsequent timer-firing
events produce no invocation at all: the deferred call never happens. -/
theorem C6_cancel_prevents_deferred (wait : Int) (s : ThrottleState α) (id : Nat)
    (evs : List (Event α)) (hs : Reachable wait s) (hp : s.timeoutId = some id)
    (hf : ∀ e ∈ evs, e.isFire = true) :
    (cancelStep s).timers = [] ∧ (cancelStep s).lastArgs = none ∧
    (run wait (cancelStep s) evs).2 = [] := by
  have hinv := reachable_inv wait s hs
  have hts : (cancelStep s).timers = [] := by
    simp [cancelStep, clearPending_eq_nil s hinv]
  exact ⟨hts, rfl, by rw [run_fires_nil_timers wait _ evs hts hf]⟩

/-- Witness for C6: cancel the timer pending after call(200,1);
call(230,2) with `wait = 100`, then fire events at 290 and 300 invoke
nothing. -/
theorem C6_witness :
    (Reachable 100 ((run 100 (initialState : ThrottleState Nat)
        [Event.call 200 1, Event.call 230 2]).1) ∧
      (run 100 (initialState : ThrottleState Nat)
        [Event.call 200 1, Event.call 230 2]).1.timeoutId = some 1 ∧
      (∀ e ∈ [Event.fire (α := Nat) 290, Event.fire 300], e.isFire = true)) ∧
    ((cancelStep ((run 100 (initialState : ThrottleState Nat)
        [Event.call 200 1, Event.call 230 2]).1)).timers = [] ∧
      (cancelStep ((run 100 (initialState : ThrottleState Nat)
        [Event.call 200 1, Event.call 230 2]).1)).lastArgs = none ∧
      (run 100 (cancelStep ((run 100 (initialState : ThrottleState Nat)
        [Event.call 200 1, Event.call 230 2]).1))
        [Event.fire 290, Event.fire 300]).2 = []) :=
  ⟨⟨⟨[Event.call 200 1, Event.call 230 2], rfl⟩, by decide, by decide⟩,
    C6_cancel_prevents_deferred 100 _ 1 [Event.fire 290, Event.fire 300]
      ⟨[Event.call 200 1, Event.call 230 2], rfl⟩ (by decide) (by decide)⟩

/-- C7: `cancel()` from any reachable state never invokes the underlying
function and leaves no timer handle, no active timer, no stored pending
arguments, and `lastCallTime = 0`; applying it twice yields exactly the
same state as applying it once. -/
theorem C7_cancel_idempotent (wait tc : Int) (s : ThrottleState α)
    (hs : Reachable wait s) :
    (step wait s (Event.cancel tc)).2 = none ∧
    (cancelStep s).timeoutId = none ∧
    (cancelStep s).timers = [] ∧
    (cancelStep s).lastArgs = none ∧
    (cancelStep s).lastCallTime = 0 ∧
    cancelStep (cancelStep s) = cancelStep s := by
  have hinv := reachable_inv wait s hs
  exact ⟨rfl, rfl, by simp [cancelStep, clearPending_eq_nil s hinv], rfl, rfl, rfl⟩

/-- Witness for C7: cancelling in the pending state after call(200,1);
call(230,2) with `wait = 100`. -/
theorem C7_witness :
    Reachable 100 ((run 100 (initialState : ThrottleState Nat)
        [Event.call 200 1, Event.call 230 2]).1) ∧
    ((step 100 ((run 100 (initialState : ThrottleState Nat)
        [Event.call 200 1, Event.call 230 2]).1) (Event.cancel 400)).2 = none ∧
      (cancelStep ((run 100 (initialState : ThrottleState Nat)
        [Event.call 200 1, Event.call 230 2]).1)).timeoutId = none ∧
      (cancelStep ((run 100 (initialState : ThrottleState Nat)
        [Event.call 200 1, Event.call 230 2]).1)).timers = [] ∧
      (cancelStep ((run 100 (initialState : ThrottleState Nat)
        [Event.call 200 1, Event.call 230 2]).1)).lastArgs = none ∧
      (cancelStep ((run 100 (initialState : ThrottleState Nat)
        [Event.call 200 1, Event.call 230 2]).1)).lastCallTime = 0 ∧
      cancelStep (cancelStep ((run 100 (initialState : ThrottleState Nat)
        [Event.call 200 1, Event.call 230 2]).1)) =
        cancelStep ((run 100 (initialState : ThrottleState Nat)
        [Event.call 200 1, Event.call 230 2]).1)) :=
  ⟨⟨[Event.call 200 1, Event.call 230 2], rfl⟩,
    C7_cancel_idempotent 100 400 _ ⟨[Event.call 200 1, Event.call 230 2], rfl⟩⟩

/-- C8: with `wait = 0` every wrapper call takes the leading-edge branch:
for every sequence of events (calls at arbitrary clock values, timer-fire
attempts, cancels), the invocations are exactly the calls — each call
invokes the underlying function synchronously with that call's arguments —
and no deferred timer is ever scheduled (no timer handle, no active
timer, hence no coalescing). -/
theorem C8_wait_zero (evs : List (Event α)) :
    (run 0 (initialState : ThrottleState α) evs).1.timers = [] ∧
    (run 0 (initialState : ThrottleState α) evs).1.timeoutId = none ∧
    (run 0 (initialState : ThrottleState α) evs).2 =
      evs.filterMap (fun e => match e with
        | Event.call now args => some (now, args)
        | _ => none) :=
  run_wait_zero initialState evs rfl rfl

/-- C9 fails as stated: with `wait = 100`, a call at clock value 200
invokes and sets `lastCallTime = 200`; after the clock jumps backward, a
call at clock value 150 also actually invokes (via the `remaining > wait`
guard) and sets `lastCallTime = 150 < 200` — so `lastCallTime` decreases
across two actual invocations of the underlying function. -/
theorem C9_counterexample :
    (run 100 (initialState : ThrottleState Nat) [Event.call 200 1]).1.lastCallTime = 200 ∧
    (run 100 (initialState : ThrottleState Nat)
      [Event.call 200 1, Event.call 150 2]).1.lastCallTime = 150 ∧
    (run 100 (initialState : ThrottleState Nat)
      [Event.call 200 1, Event.call 150 2]).2 = [(200, 1), (150, 2)] := by
  decide

/-- C9 (amended): provided the clock values of the events in a trace are
non-decreasing, the times of the actual invocations of the underlying
function form a non-decreasing sequence; every step that actually invokes
sets `lastCallTime` to that step's clock value (so `lastCallTime` is
non-decreasing across actual invocations), and a wrapper call that does
not invoke (deferred or suppressed) never changes `lastCallTime`. -/
theorem C9_monotone (wait : Int) (evs : List (Event α)) (ev : Event α)
    (s s' : ThrottleState α) (now : Int) (args : α)
    (hmono : List.Chain' (· ≤ ·) (evs.map Event.time))
    (hinv : ((step wait s ev).2).isSome = true)
    (hsupp : (callStep wait now args s').2 = none) :
    List.Chain' (· ≤ ·) ((run wait initialState evs).2.map Prod.fst) ∧
    (step wait s ev).1.lastCallTime = ev.time ∧
    (callStep wait now args s').1.lastCallTime = s'.lastCallTime := by
  refine ⟨hmono.sublist (run_invocation_times_sublist wait initialState evs), ?_, ?_⟩
  · cases ev with
    | call n a =>
      by_cases hl : leadingCond wait n s
      · simp [step, callStep, hl, Event.time]
      · exfalso
        by_cases htid : s.timeoutId.isNone <;>
          simp [step, callStep, hl, htid] at hinv
    | fire n =>
      cases hts : s.timers with
      | nil => simp [step, fireStep, hts] at hinv
      | cons p rest =>
        cases hla : s.lastArgs with
        | none => simp [step, fireStep, hts, hla] at hinv
        | some a => simp [step, fireStep, hts, hla, Event.time]
    | cancel n => simp [step] at hinv
  · by_cases hl : leadingCond wait now s'
    · simp [callStep, hl] at hsupp
    · by_cases htid : s'.timeoutId.isNone <;> simp [callStep, hl, htid]

/-- Witness for C9: the monotone trace call(200,1); call(230,2);
fire(300), an invoking leading call at 400 from the fresh state, and a
suppressed call at 230 in a state with `lastCallTime = 200`. -/
theorem C9_witness :
    (List.Chain' (· ≤ ·) (([Event.call (α := Nat) 200 1, Event.call 230 2,
        Event.fire 300]).map Event.time) ∧
      ((step 100 (initialState : ThrottleState Nat) (Event.call 400 5)).2).isSome = true ∧
      (callStep 100 230 (7 : Nat) ((run 100 (initialState : ThrottleState Nat)
        [Event.call 200 1]).1)).2 = none) ∧
    (List.Chain' (· ≤ ·) ((run 100 (initialState : ThrottleState Nat)
        [Event.call 200 1, Event.call 230 2, Event.fire 300]).2.map Prod.fst) ∧
      (step 100 (initialState : ThrottleState Nat) (Event.call 400 5)).1.lastCallTime =
        (Event.call (α := Nat) 400 5).time ∧
      (callStep 100 230 (7 : Nat) ((run 100 (initialState : ThrottleState Nat)
        [Event.call 200 1]).1)).1.lastCallTime =
        (run 100 (initialState : ThrottleState Nat) [Event.call 200 1]).1.lastCallTime) :=
  ⟨⟨by simp [Event.time, List.chain'_cons], by decide, by decide⟩,
    C9_monotone 100 [Event.call 200 1, Event.call 230 2, Event.fire 300]
      (Event.call 400 5) initialState _ 230 7
      (by simp [Event.time, List.chain'_cons]) (by decide) (by decide)⟩

/-- C10: in any reachable state in which a timer is active, the stored
pending arguments are present and equal exactly the (ghost-recorded)
arguments of the wrapper call that scheduled that timer, so the firing
callback invokes the underlying function with precisely those arguments —
stale arguments left behind by a leading-edge cancellation are never
passed to it. -/
theorem C10_fire_uses_scheduling_args (wait : Int) (s : ThrottleState α) (id : Nat)
    (d fnow : Int) (a : α) (rest : List (Nat × Int × α))
    (hs : Reachable wait s) (ht : s.timers = (id, d, a) :: rest) :
    s.lastArgs = some a ∧ (fireStep fnow s).2 = some a := by
  have hinv := reachable_inv wait s hs
  cases htid : s.timeoutId with
  | none =>
    rw [hinv.2 htid] at ht
    exact absurd ht (by simp)
  | some id' =>
    obtain ⟨d', a', hts, hla⟩ := hinv.1 id' htid
    rw [hts] at ht
    have ha : a' = a := by
      have := (List.cons.injEq _ _ _ _ ▸ ht).1
      simp [Prod.ext_iff] at this
      exact this.2.2
    subst ha
    exact ⟨hla, by simp [fireStep, hts, hla]⟩

/-- Witness for C10: in the reachable state after call(200,1);
call(230,2) with `wait = 100`, the active timer's ghost arguments are `2`
(the second call's arguments), `lastArgs = some 2`, and firing invokes
with `2`. -/
theorem C10_witness :
    (Reachable 100 ((run 100 (initialState : ThrottleState Nat)
        [Event.call 200 1, Event.call 230 2]).1) ∧
      (run 100 (initialState : ThrottleState Nat)
        [Event.call 200 1, Event.call 230 2]).1.timers = [(1, 300, 2)]) ∧
    ((run 100 (initialState : ThrottleState Nat)
        [Event.call 200 1, Event.call 230 2]).1.lastArgs = some 2 ∧
      (fireStep 310 ((run 100 (initialState : ThrottleState Nat)
        [Event.call 200 1, Event.call 230 2]).1)).2 = some 2) :=
  ⟨⟨⟨[Event.call 200 1, Event.call 230 2], rfl⟩, by decide⟩,
    C10_fire_uses_scheduling_args 100 _ 1 300 310 2 []
      ⟨[Event.call 200 1, Event.call 230 2], rfl⟩ (by decide)⟩

end Throttle
